import Mathlib

/-!
# Verification of the GymAI voice-to-workout pipeline

Shallow embedding of the pipeline logic of `backend/main.py` (endpoints
`/transcribe`, `/parse-workout`, `/log-workout`) and of the row shapes of
`backend/models.py`, together with theorems settling the specification
claims about them.

Conventions of the embedding:
* JSON values decoded by `json.loads` are modelled by `JVal`; Python's
  runtime type tests (`isinstance(x, int)`, where `bool` is a subclass of
  `int`) are modelled faithfully.
* A Python dict produced by `json.loads` has unique keys, so it is
  modelled as an association list with first-match lookup.
* Ids generated by `uuid.uuid4()` are modelled by a monotone counter
  `Store.nextId`; the only property the code relies on is freshness.
* SQLAlchemy's `add`/`commit`/`rollback` discipline is modelled with a
  commit-failure oracle `commitFails : Nat → Bool` telling whether the
  k-th `db.commit()` of the invocation raises.  Every `db.add` in
  `log_workout` is immediately followed by `db.commit`, so a failing
  commit leaves exactly the rows of all earlier (successful) commits
  durable; the `except` handlers run `db.rollback()`, which discards only
  uncommitted work.
* Outbound network calls (Whisper, GPT-4) are modelled by passing their
  result in as a parameter; `transcribe_audio` additionally records in
  `serviceCalled` whether control reached the external call.
-/

namespace GymAI

/-- A JSON value as decoded by Python's `json.loads`: objects become
dicts, arrays become lists, integral numbers become `int`, fractional
numbers become `float` (modelled as `Rat`; the claims involve no
non-representable floats), plus strings, booleans and `None`. -/
inductive JVal where
  | jnull
  | jbool (b : Bool)
  | jint (n : Int)
  | jfloat (q : Rat)
  | jstr (s : String)
  | jarr (xs : List JVal)
  | jobj (kvs : List (String × JVal))

/-- A decoded JSON object (Python dict with unique keys). -/
abbrev JObj := List (String × JVal)

/-- Python `k in d` for a dict. -/
def containsKey (kvs : JObj) (k : String) : Bool :=
  kvs.any (fun p => p.1 == k)

/-- Python `d.get(k)` / `d[k]` for a dict (unique keys, first match). -/
def dictGet (kvs : JObj) (k : String) : Option JVal :=
  (kvs.find? (fun p => p.1 == k)).map (fun p => p.2)

/-- Python `d[k] = v`: replace the value at key `k`, or append the pair
if the key is absent. -/
def dictSet (kvs : JObj) (k : String) (v : JVal) : JObj :=
  if containsKey kvs k then
    kvs.map (fun p => if p.1 == k then (k, v) else p)
  else
    kvs ++ [(k, v)]

/-- Characters removed by Python `str.strip()` (ASCII whitespace). -/
def pyIsSpace (c : Char) : Bool :=
  c = ' ' || c = '\t' || c = '\n' || c = '\r' || c.toNat = 11 || c.toNat = 12

/-- Python `s.strip()`. -/
def pystrip (s : String) : String :=
  String.mk (((s.data.dropWhile pyIsSpace).reverse.dropWhile pyIsSpace).reverse)

/-- Python `isinstance(x, int)` on an optional fetched value (`none` is a
missing key, i.e. Python `None`); `bool` is a subclass of `int`. -/
def isinstanceInt : Option JVal → Bool
  | some (.jint _) => true
  | some (.jbool _) => true
  | _ => false

/-- Python `isinstance(x, (int, float))`. -/
def isinstanceNum : Option JVal → Bool
  | some (.jint _) => true
  | some (.jbool _) => true
  | some (.jfloat _) => true
  | _ => false

/-- Python `x < 1` on a value known to pass `isinstance(x, int)`
(`True` counts as 1, `False` as 0). -/
def intLtOne : Option JVal → Bool
  | some (.jint n) => n < 1
  | some (.jbool b) => !b
  | _ => false

/-- Python `x < 0` on a value passing `isinstance(x, int)`. -/
def intLtZero : Option JVal → Bool
  | some (.jint n) => n < 0
  | some (.jbool _) => false
  | _ => false

/-- Python `x < 0` on a value passing `isinstance(x, (int, float))`. -/
def numLtZero : Option JVal → Bool
  | some (.jint n) => n < 0
  | some (.jfloat q) => q < 0
  | some (.jbool _) => false
  | _ => false

/-- main.py line 443: `not isinstance(set_data.get("set_number"), int) or
set_data.get("set_number") < 1` — triggers the silent repair. -/
def repairNeeded (x : Option JVal) : Bool :=
  !(isinstanceInt x) || intLtOne x

/-- main.py line 446: `not isinstance(set_data.get("reps"), int) or
set_data.get("reps") < 0` — rejects the structure. -/
def repsInvalid (x : Option JVal) : Bool :=
  !(isinstanceInt x) || intLtZero x

/-- main.py line 449: `not isinstance(set_data.get("weight"), (int, float))
or set_data.get("weight") < 0` — rejects the structure. -/
def weightInvalid (x : Option JVal) : Bool :=
  !(isinstanceNum x) || numLtZero x

/-- A set entry that the validation loop lets through: a dict whose
`reps` and `weight` pass the checks of lines 446-450. -/
def entryPasses : JVal → Bool
  | .jobj kvs => !(repsInvalid (dictGet kvs "reps")) && !(weightInvalid (dictGet kvs "weight"))
  | _ => false

/-- Failure outcomes of the `/parse-workout` endpoint (main.py 389-460),
one constructor per distinct `HTTPException`/handler:
* `apiKeyMissing`: 500 "OpenAI API key not configured" (line 396);
* `emptyInput`: 400 "No text provided for parsing" (line 399);
* `malformedModelOutput`: `json.JSONDecodeError` handler, 500 "Failed to
  parse AI response" (lines 455-457) — distinct from all semantic errors;
* `parseRejected v`: 400 with detail `parsed_data["error"]` (line 436);
* `incompleteStructure`: 400 "Invalid workout data format" (line 439);
* `invalidReps i`: 400 "Invalid reps in set {i+1}" for 0-based loop
  index `i` (line 447);
* `invalidWeight i`: 400 "Invalid weight in set {i+1}" (line 450);
* `internalError`: the generic `except Exception` handler, 500 "Failed
  to parse workout" (e.g. a `sets` value that is not enumerable or a set
  entry that is not a dict). -/
inductive ParseErr where
  | apiKeyMissing
  | emptyInput
  | malformedModelOutput
  | parseRejected (reason : JVal)
  | incompleteStructure
  | invalidReps (i : Nat)
  | invalidWeight (i : Nat)
  | internalError

/-- The silent repair of main.py lines 443-444: the set entry at 0-based
index `n` gets `set_number` overwritten with `n + 1` when the supplied
value is missing, not an `int`, or < 1; otherwise it is left alone. -/
def repairEntry (kvs : JObj) (n : Nat) : JObj :=
  if repairNeeded (dictGet kvs "set_number") then
    dictSet kvs "set_number" (.jint ((n : Int) + 1))
  else kvs

/-- The validation/repair loop of main.py lines 442-450, processing the
entries of `parsed_data["sets"]` whose head sits at absolute 0-based
index `n`.  Each entry must be a dict (otherwise `set_data.get` raises
`AttributeError`, the generic handler); its `set_number` is silently
repaired by `repairEntry`; then `reps` and `weight` are checked in that
order and the first failure aborts the whole structure. -/
def validateSets : List JVal → Nat → Except ParseErr (List JVal)
  | [], _ => .ok []
  | x :: rest, n =>
    match x with
    | .jobj kvs =>
      if repsInvalid (dictGet (repairEntry kvs n) "reps") then
        .error (.invalidReps n)
      else if weightInvalid (dictGet (repairEntry kvs n) "weight") then
        .error (.invalidWeight n)
      else
        match validateSets rest (n + 1) with
        | .ok ys => .ok (.jobj (repairEntry kvs n) :: ys)
        | .error e => .error e
    | _ => .error .internalError

/-- Dispatch on the runtime type of `parsed_data["sets"]` before the
loop `for i, set_data in enumerate(parsed_data["sets"])`: a list is
iterated (and the repaired list written back in place); an empty string
or empty dict iterates zero times, so `parsed_data` is returned
untouched; every other value raises (`TypeError` on non-iterables,
`AttributeError` on the first element of a string/dict), reaching the
generic 500 handler. -/
def runSets (v : JVal) (pd : JObj) : Except ParseErr JObj :=
  match v with
  | .jarr xs => (validateSets xs 0).map (fun ys => dictSet pd "sets" (.jarr ys))
  | .jstr s => if s == "" then .ok pd else .error .internalError
  | .jobj kvs => if kvs.isEmpty then .ok pd else .error .internalError
  | _ => .error .internalError

/-- The `/parse-workout` endpoint (main.py 389-460).  The outbound GPT-4
call is modelled by taking the JSON-decode outcome of the model's
response as the parameter `decoded` (`Except.error ()` = the response
body was not valid JSON, i.e. `json.loads` raised); `apiKey` models
whether `openai.api_key` is configured.  The function touches no store:
its type has no `Store` argument, matching the source, which performs no
persistence in this endpoint. -/
def parse_workout (apiKey : Bool) (text : String) (decoded : Except Unit JObj) :
    Except ParseErr JObj :=
  if !apiKey then .error .apiKeyMissing
  else if text == "" || pystrip text == "" then .error .emptyInput
  else
    match decoded with
    | .error _ => .error .malformedModelOutput
    | .ok pd =>
      match dictGet pd "error" with
      | some v => .error (.parseRejected v)
      | none =>
        if !(containsKey pd "exercise_name") || !(containsKey pd "sets") then
          .error .incompleteStructure
        else
          runSets ((dictGet pd "sets").getD .jnull) pd

/-- Extract the list of `set_number` values of the returned structure's
`sets` array (a convenience observer for stating claims). -/
def repairedSetNumbers : Except ParseErr JObj → Option (List (Option JVal))
  | .ok pd =>
    match dictGet pd "sets" with
    | some (.jarr xs) =>
      some (xs.map (fun x => match x with
        | .jobj kvs => dictGet kvs "set_number"
        | _ => none))
    | _ => none
  | .error _ => none

/-- Failure outcomes of the `/transcribe` endpoint (main.py 354-387):
* `apiKeyMissing`: 500 "OpenAI API key not configured" (line 361);
* `unsupportedMedia`: 400 "Invalid file type..." (line 365);
* `payloadTooLarge`: 400 "File too large. Maximum size is 25MB." (370);
* `noSpeechDetected`: 400 "No speech detected in audio file." (380). -/
inductive TransErr where
  | apiKeyMissing
  | unsupportedMedia
  | payloadTooLarge
  | noSpeechDetected
deriving DecidableEq

/-- Result of a `/transcribe` invocation together with whether control
reached the external Whisper call (`openai.Audio.transcribe`, line 373). -/
structure TranscribeOut where
  result : Except TransErr String
  serviceCalled : Bool

/-- Python `s.startswith(p)`, by character-list comparison: `leads p s`
is true when `p` is an initial segment of `s`. -/
def leads : List Char → List Char → Bool
  | [], _ => true
  | _ :: _, [] => false
  | a :: as, b :: bs => a == b && leads as bs

/-- main.py line 364: `audio_file.content_type` is truthy and starts
with `audio/` (`none` models a missing content type, Python `None`). -/
def declaredAudio : Option String → Bool
  | none => false
  | some s => !(s == "") && leads "audio/".data s.data

/-- The `/transcribe` endpoint (main.py 354-387).  `contentType` and
`audioLen` are the uploaded file's declared media type and byte length;
`serviceResult` is the text the external Whisper call would return, and
is consulted only if control reaches that call. -/
def transcribe_audio (apiKey : Bool) (contentType : Option String)
    (audioLen : Nat) (serviceResult : String) : TranscribeOut :=
  if !apiKey then ⟨.error .apiKeyMissing, false⟩
  else if !(declaredAudio contentType) then ⟨.error .unsupportedMedia, false⟩
  else if audioLen > 25 * 1024 * 1024 then ⟨.error .payloadTooLarge, false⟩
  else
    let t := pystrip serviceResult
    if serviceResult == "" || t == "" then ⟨.error .noSpeechDetected, true⟩
    else ⟨.ok t, true⟩

/-- A row of `workout_sessions` (models.py 9-19); `date`/`created_at`
timestamps carry no claim content and are omitted. -/
structure SessionRow where
  id : Nat
  user_id : String
  notes : Option String
deriving DecidableEq

/-- A row of `exercises` (models.py 21-31). -/
structure ExerciseRow where
  id : Nat
  session_id : Nat
  exercise_name : String
deriving DecidableEq

/-- A row of `sets` (models.py 33-45): `set_number` is a non-null
integer column, `reps`/`weight`/`notes` are nullable. -/
structure SetRow where
  id : Nat
  exercise_id : Nat
  set_number : Int
  reps : Option Int
  weight : Option Rat
  notes : Option String
deriving DecidableEq

/-- The persistent store: the three tables plus the fresh-id counter
modelling `uuid.uuid4()`. -/
structure Store where
  sessions : List SessionRow
  exercises : List ExerciseRow
  sets : List SetRow
  nextId : Nat
deriving DecidableEq

/-- One entry of `LogWorkoutRequest.sets` as read by `log_workout`
(main.py 502-508): the four keys it fetches, typed as the columns they
are stored into; `none` models a missing key. -/
structure SetInput where
  set_number : Option Int
  reps : Option Int
  weight : Option Rat
  notes : Option String
deriving DecidableEq

/-- The `LogWorkoutRequest` body (main.py 100-105). -/
structure LogRequest where
  user_id : String
  session_id : Option Nat
  exercise_name : String
  sets : List SetInput
  notes : Option String
deriving DecidableEq

/-- Failure outcomes of `/log-workout`:
* `sessionNotFound`: 404 "Workout session not found" (main.py 489);
* `dbFailure`: any raising `db.commit()`, surfaced by the generic
  handler as 500 "Failed to log workout" after `db.rollback()`. -/
inductive LogErr where
  | sessionNotFound
  | dbFailure
deriving DecidableEq

/-- The `LogWorkoutResponse` body (main.py 107-111). -/
structure LogResult where
  session_id : Nat
  exercise_id : Nat
  sets_created : List Nat
deriving DecidableEq

/-- The commit-failure oracle of a run in which every commit succeeds. -/
def noFail : Nat → Bool := fun _ => false

/-- The `Set` rows that the loop of main.py 502-513 builds for the input
entries, under exercise `exId`, with ids drawn from `n` upward:
`set_number=set_data.get("set_number", 1)`, the other fields as-is. -/
def mkSetRows (exId : Nat) : Nat → List SetInput → List SetRow
  | _, [] => []
  | n, s :: rest =>
    ⟨n, exId, s.set_number.getD 1, s.reps, s.weight, s.notes⟩ :: mkSetRows exId (n + 1) rest

/-- The list `n, n+1, ..., n+len-1` (the ids handed out to `len`
consecutively inserted rows). -/
def idsFrom (n : Nat) : Nat → List Nat
  | 0 => []
  | len + 1 => n :: idsFrom (n + 1) len

/-- The set-creation loop (main.py 500-513): for each entry, build the
row, `db.add` it and `db.commit`; the id is appended to `sets_created`
only after a successful commit.  `k` is the index of the next commit of
the invocation; a failing commit leaves the store as of the last
successful commit (the added row was still pending) and raises, which
the handler turns into rollback-plus-500. -/
def insertSets (commitFails : Nat → Bool) (exId : Nat) :
    List SetInput → Store → Nat → Store × Nat × Except LogErr (List Nat)
  | [], st, k => (st, k, .ok [])
  | s :: rest, st, k =>
    if commitFails k then (st, k, .error .dbFailure)
    else
      match insertSets commitFails exId rest
          { st with
            sets := st.sets ++ [⟨st.nextId, exId, s.set_number.getD 1, s.reps, s.weight, s.notes⟩],
            nextId := st.nextId + 1 } (k + 1) with
      | (st2, k2, .ok ids) => (st2, k2, .ok (st.nextId :: ids))
      | (st2, k2, .error e) => (st2, k2, .error e)

/-- Steps 2-3 of `/log-workout` (main.py 491-520): create the Exercise
row under the resolved session (commit `k`), then run the set loop, then
build the response. -/
def logExerciseAndSets (commitFails : Nat → Bool) (st : Store) (r : LogRequest)
    (sessId : Nat) (k : Nat) : Store × Except LogErr LogResult :=
  if commitFails k then (st, .error .dbFailure)
  else
    match insertSets commitFails st.nextId r.sets
        { st with
          exercises := st.exercises ++ [⟨st.nextId, sessId, r.exercise_name⟩],
          nextId := st.nextId + 1 } (k + 1) with
    | (st2, _, .ok ids) => (st2, .ok ⟨sessId, st.nextId, ids⟩)
    | (st2, _, .error e) => (st2, .error e)

/-- The `/log-workout` endpoint (main.py 462-528).  Step 1 resolves the
session: with no `session_id`, a new Session row is added and committed
(commit 0); with a `session_id`, it is looked up filtered by both id and
the caller's `user_id`, and a miss raises the 404 before any write.  The
`except` handlers run `db.rollback()`, which discards pending (never
committed) work only, so the returned store on failure is the store as
of the last successful commit — the source's step-wise commits, not one
atomic transaction. -/
def log_workout (commitFails : Nat → Bool) (st : Store) (r : LogRequest) :
    Store × Except LogErr LogResult :=
  match r.session_id with
  | none =>
    if commitFails 0 then (st, .error .dbFailure)
    else
      logExerciseAndSets commitFails
        { st with
          sessions := st.sessions ++ [⟨st.nextId, r.user_id, r.notes⟩],
          nextId := st.nextId + 1 } r st.nextId 1
  | some sid =>
    if st.sessions.any (fun s => s.id == sid && s.user_id == r.user_id) then
      logExerciseAndSets commitFails st r sid 0
    else
      (st, .error .sessionNotFound)

/-- Well-formed store: every id was handed out by the counter, and every
foreign key points below the counter (all reachable stores satisfy it;
it rules out rows that claim ids the counter has not produced yet). -/
def Store.wf (st : Store) : Prop :=
  (∀ s ∈ st.sessions, s.id < st.nextId) ∧
  (∀ e ∈ st.exercises, e.id < st.nextId ∧ e.session_id < st.nextId) ∧
  (∀ x ∈ st.sets, x.id < st.nextId ∧ x.exercise_id < st.nextId)

/-- The session-resolution precondition under which `/log-workout` does
not 404: either no session id is supplied, or the supplied id matches a
session row owned by the requesting user (main.py 482-489). -/
def sessionOK (st : Store) (r : LogRequest) : Prop :=
  match r.session_id with
  | none => True
  | some sid => st.sessions.any (fun s => s.id == sid && s.user_id == r.user_id) = true

/-! ## Dictionary lemmas -/

theorem dictGet_cons (p : String × JVal) (t : JObj) (k : String) :
    dictGet (p :: t) k = if p.1 == k then some p.2 else dictGet t k := by
  by_cases hp : (p.1 == k) = true <;> simp [dictGet, List.find?_cons, hp]

theorem dictSet_cons_ne (p : String × JVal) (t : JObj) (k : String) (v : JVal)
    (hp : (p.1 == k) = false) :
    dictSet (p :: t) k v = p :: dictSet t k v := by
  have hp' : ¬ p.1 = k := by simpa using hp
  by_cases h : t.any (fun q => q.1 == k) = true <;>
    simp [dictSet, containsKey, hp, hp', h]

theorem dictGet_dictSet_same (kvs : JObj) (k : String) (v : JVal) :
    dictGet (dictSet kvs k v) k = some v := by
  induction kvs with
  | nil => simp [dictSet, containsKey, dictGet, List.find?]
  | cons p t ih =>
    by_cases hp : (p.1 == k) = true
    · have hpk : p.1 = k := by simpa using hp
      have hset : dictSet (p :: t) k v =
          (k, v) :: (t.map (fun q => if q.1 == k then (k, v) else q)) := by
        simp [dictSet, containsKey, hp, hpk]
      rw [hset, dictGet_cons]
      simp
    · rw [dictSet_cons_ne p t k v (by simpa using hp), dictGet_cons]
      simp only [hp, Bool.false_eq_true, if_false]
      exact ih

theorem dictGet_map_replace_ne (kvs : JObj) (k k' : String) (v : JVal) (h : k' ≠ k) :
    dictGet (kvs.map (fun q => if q.1 == k then (k, v) else q)) k' = dictGet kvs k' := by
  have hkk' : (k == k') = false := by simp [Ne.symm h]
  induction kvs with
  | nil => simp [dictGet]
  | cons p t ih =>
    rw [List.map_cons, dictGet_cons, dictGet_cons]
    by_cases hp : (p.1 == k) = true
    · have hpk : p.1 = k := by simpa using hp
      have h1 : (if p.1 == k then (k, v) else p) = (k, v) := by rw [if_pos hp]
      rw [h1, if_neg (by simp [Ne.symm h]), if_neg (by simp [hpk, Ne.symm h])]
      exact ih
    · have h1 : (if p.1 == k then (k, v) else p) = p := by rw [if_neg hp]
      rw [h1]
      by_cases hp' : (p.1 == k') = true
      · rw [if_pos hp', if_pos hp']
      · rw [if_neg hp', if_neg hp']
        exact ih

theorem dictGet_append_single_ne (kvs : JObj) (k k' : String) (v : JVal) (h : k' ≠ k) :
    dictGet (kvs ++ [(k, v)]) k' = dictGet kvs k' := by
  induction kvs with
  | nil =>
    simp [dictGet, List.find?, show (k == k') = false by simp [Ne.symm h]]
  | cons p t ih =>
    rw [List.cons_append, dictGet_cons, dictGet_cons]
    by_cases hp : (p.1 == k') = true
    · rw [if_pos hp, if_pos hp]
    · rw [if_neg hp, if_neg hp]
      exact ih

theorem dictGet_dictSet_ne (kvs : JObj) (k k' : String) (v : JVal) (h : k' ≠ k) :
    dictGet (dictSet kvs k v) k' = dictGet kvs k' := by
  by_cases hc : containsKey kvs k = true
  · rw [dictSet, if_pos hc]
    exact dictGet_map_replace_ne kvs k k' v h
  · rw [dictSet, if_neg hc]
    exact dictGet_append_single_ne kvs k k' v h

theorem containsKey_eq_isSome (kvs : JObj) (k : String) :
    containsKey kvs k = (dictGet kvs k).isSome := by
  induction kvs with
  | nil => rfl
  | cons p t ih =>
    rw [dictGet_cons]
    by_cases hp : (p.1 == k) = true
    · simp [containsKey, List.any_cons, hp]
    · have hp0 : (p.1 == k) = false := by simpa using hp
      rw [if_neg (by simp [hp0])]
      simp only [containsKey, List.any_cons, hp0, Bool.false_or]
      exact ih

/-! ## List lemmas -/

theorem filter_none {α} {p : α → Bool} {l : List α} (h : ∀ x ∈ l, p x = false) :
    l.filter p = [] := by
  induction l with
  | nil => rfl
  | cons a t ih =>
    have ha := h a (List.mem_cons_self a t)
    simp [List.filter_cons, ha, ih (fun x hx => h x (List.mem_cons_of_mem a hx))]

theorem filter_all {α} {p : α → Bool} {l : List α} (h : ∀ x ∈ l, p x = true) :
    l.filter p = l := by
  induction l with
  | nil => rfl
  | cons a t ih =>
    have ha := h a (List.mem_cons_self a t)
    simp [List.filter_cons, ha, ih (fun x hx => h x (List.mem_cons_of_mem a hx))]

theorem getElem?_append_len {α} (l l' : List α) (i : Nat) :
    (l ++ l')[l.length + i]? = l'[i]? := by
  induction l with
  | nil => simp
  | cons a t ih =>
    have hlen : (a :: t).length + i = (t.length + i) + 1 := by
      simp [List.length_cons]; omega
    rw [hlen, List.cons_append, List.getElem?_cons_succ, ih]

/-! ## Row-builder lemmas -/

theorem mkSetRows_length (exId : Nat) :
    ∀ (n : Nat) (ss : List SetInput), (mkSetRows exId n ss).length = ss.length := by
  intro n ss
  induction ss generalizing n with
  | nil => rfl
  | cons s rest ih => simp [mkSetRows, ih]

theorem mkSetRows_exercise_id (exId : Nat) :
    ∀ (n : Nat) (ss : List SetInput), ∀ x ∈ mkSetRows exId n ss, x.exercise_id = exId := by
  intro n ss
  induction ss generalizing n with
  | nil => intro x hx; cases hx
  | cons s rest ih =>
    intro x hx
    rcases List.mem_cons.mp hx with hx | hx
    · subst hx; rfl
    · exact ih (n + 1) x hx

theorem mkSetRows_getElem? (exId : Nat) :
    ∀ (ss : List SetInput) (n i : Nat) (s : SetInput), ss[i]? = some s →
      (mkSetRows exId n ss)[i]? =
        some ⟨n + i, exId, s.set_number.getD 1, s.reps, s.weight, s.notes⟩ := by
  intro ss
  induction ss with
  | nil => intro n i s h; simp at h
  | cons a rest ih =>
    intro n i s h
    match i with
    | 0 =>
      simp only [List.getElem?_cons_zero, Option.some.injEq] at h
      subst h
      simp [mkSetRows]
    | i + 1 =>
      rw [List.getElem?_cons_succ] at h
      have := ih (n + 1) i s h
      simp only [mkSetRows, List.getElem?_cons_succ, this]
      have harith : n + 1 + i = n + (i + 1) := by omega
      rw [harith]

/-! ## Evaluation of failure-free `/log-workout` runs -/

theorem insertSets_noFail (exId : Nat) :
    ∀ (ss : List SetInput) (st : Store) (k : Nat),
      insertSets noFail exId ss st k =
        ({ st with sets := st.sets ++ mkSetRows exId st.nextId ss,
                   nextId := st.nextId + ss.length },
         k + ss.length, .ok (idsFrom st.nextId ss.length)) := by
  intro ss
  induction ss with
  | nil => intro st k; simp [insertSets, mkSetRows, idsFrom]
  | cons s rest ih =>
    intro st k
    rw [insertSets, if_neg (by simp [noFail])]
    rw [ih]
    simp only [mkSetRows, idsFrom, List.length_cons]
    simp [List.append_assoc]
    constructor
    · omega
    · omega

theorem logExerciseAndSets_noFail (st : Store) (r : LogRequest) (sessId k : Nat) :
    logExerciseAndSets noFail st r sessId k =
      ({ st with exercises := st.exercises ++ [⟨st.nextId, sessId, r.exercise_name⟩],
                 sets := st.sets ++ mkSetRows st.nextId (st.nextId + 1) r.sets,
                 nextId := st.nextId + 1 + r.sets.length },
       .ok ⟨sessId, st.nextId, idsFrom (st.nextId + 1) r.sets.length⟩) := by
  rw [logExerciseAndSets, if_neg (by simp [noFail])]
  rw [insertSets_noFail]

theorem log_workout_noFail_new (st : Store) (r : LogRequest) (h : r.session_id = none) :
    log_workout noFail st r =
      (⟨st.sessions ++ [⟨st.nextId, r.user_id, r.notes⟩],
        st.exercises ++ [⟨st.nextId + 1, st.nextId, r.exercise_name⟩],
        st.sets ++ mkSetRows (st.nextId + 1) (st.nextId + 2) r.sets,
        st.nextId + 2 + r.sets.length⟩,
       .ok ⟨st.nextId, st.nextId + 1, idsFrom (st.nextId + 2) r.sets.length⟩) := by
  simp only [log_workout, h]
  rw [if_neg (by simp [noFail])]
  rw [logExerciseAndSets_noFail]

theorem log_workout_noFail_existing (st : Store) (r : LogRequest) (sid : Nat)
    (h : r.session_id = some sid)
    (hex : st.sessions.any (fun s => s.id == sid && s.user_id == r.user_id) = true) :
    log_workout noFail st r =
      ({ st with exercises := st.exercises ++ [⟨st.nextId, sid, r.exercise_name⟩],
                 sets := st.sets ++ mkSetRows st.nextId (st.nextId + 1) r.sets,
                 nextId := st.nextId + 1 + r.sets.length },
       .ok ⟨sid, st.nextId, idsFrom (st.nextId + 1) r.sets.length⟩) := by
  simp only [log_workout, h]
  rw [if_pos hex]
  exact logExerciseAndSets_noFail st r sid 0

/-! ## Validator/parser lemmas -/

theorem repairEntry_set_number (kvs : JObj) (n : Nat) :
    dictGet (repairEntry kvs n) "set_number" =
      (if repairNeeded (dictGet kvs "set_number") then some (.jint ((n : Int) + 1))
       else dictGet kvs "set_number") := by
  rw [repairEntry]
  split
  · exact dictGet_dictSet_same kvs "set_number" _
  · rfl

theorem repairEntry_reps (kvs : JObj) (n : Nat) :
    dictGet (repairEntry kvs n) "reps" = dictGet kvs "reps" := by
  rw [repairEntry]
  split
  · exact dictGet_dictSet_ne kvs "set_number" "reps" _ (by decide)
  · rfl

theorem repairEntry_weight (kvs : JObj) (n : Nat) :
    dictGet (repairEntry kvs n) "weight" = dictGet kvs "weight" := by
  rw [repairEntry]
  split
  · exact dictGet_dictSet_ne kvs "set_number" "weight" _ (by decide)
  · rfl

theorem pystrip_empty : pystrip "" = "" := rfl

theorem strip_guard_false {s : String} (h : (pystrip s == "") = false) :
    (s == "" || pystrip s == "") = false := by
  cases ht : s == ""
  · simp [ht, h]
  · have hs : s = "" := by simpa using ht
    subst hs
    rw [pystrip_empty] at h
    simp at h

theorem parse_workout_decodeFail (text : String) (u : Unit)
    (hts : (pystrip text == "") = false) :
    parse_workout true text (.error u) = .error .malformedModelOutput := by
  rw [parse_workout]
  simp [strip_guard_false hts]

theorem parse_workout_ok_reduce (text : String) (pd : JObj)
    (hts : (pystrip text == "") = false) :
    parse_workout true text (.ok pd) =
      (match dictGet pd "error" with
       | some v => .error (.parseRejected v)
       | none =>
         if !(containsKey pd "exercise_name") || !(containsKey pd "sets") then
           .error .incompleteStructure
         else
           runSets ((dictGet pd "sets").getD .jnull) pd) := by
  rw [parse_workout]
  simp [strip_guard_false hts]

theorem dictGet_of_all (kvs : JObj) (k : String) (w : JVal)
    (hc : containsKey kvs k = true) (hall : ∀ p ∈ kvs, p.1 = k → p.2 = w) :
    dictGet kvs k = some w := by
  induction kvs with
  | nil => simp [containsKey] at hc
  | cons p t ih =>
    rw [dictGet_cons]
    by_cases hp : (p.1 == k) = true
    · rw [if_pos hp]
      rw [hall p (List.mem_cons_self p t) (by simpa using hp)]
    · rw [if_neg hp]
      have hc' : containsKey t k = true := by
        have := hc
        simp only [containsKey, List.any_cons] at this
        rcases Bool.or_eq_true_iff.mp this with h | h
        · exact absurd h hp
        · exact h
      exact ih hc' (fun p hp hk => hall p (List.mem_cons_of_mem _ hp) hk)

theorem map_replace_eq_self (kvs : JObj) (k : String) (v : JVal)
    (hall : ∀ p ∈ kvs, p.1 = k → p.2 = v) :
    kvs.map (fun q => if q.1 == k then (k, v) else q) = kvs := by
  induction kvs with
  | nil => rfl
  | cons p t ih =>
    rw [List.map_cons]
    by_cases hp : (p.1 == k) = true
    · have hpk : p.1 = k := by simpa using hp
      have hpv : p.2 = v := hall p (List.mem_cons_self p t) hpk
      rw [if_pos hp]
      rw [ih (fun q hq hk => hall q (List.mem_cons_of_mem _ hq) hk)]
      rw [← hpk, ← hpv]
    · rw [if_neg hp, ih (fun q hq hk => hall q (List.mem_cons_of_mem _ hq) hk)]

theorem dictSet_of_all (kvs : JObj) (k : String) (v : JVal)
    (hc : containsKey kvs k = true) (hall : ∀ p ∈ kvs, p.1 = k → p.2 = v) :
    dictSet kvs k v = kvs := by
  rw [dictSet, if_pos hc]
  exact map_replace_eq_self kvs k v hall

theorem nat_beq_false {a b : Nat} (h : a ≠ b) : (a == b) = false := by
  cases hq : a == b
  · rfl
  · exact absurd (by simpa using hq) h

theorem idsFrom_length : ∀ (len n : Nat), (idsFrom n len).length = len := by
  intro len
  induction len with
  | zero => intro n; rfl
  | succ m ih => intro n; simp [idsFrom, ih]

theorem count_filter_exId (old ra rb : List SetRow) (e : Nat)
    (hold : ∀ x ∈ old, (x.exercise_id == e) = false)
    (ha : ∀ x ∈ ra, (x.exercise_id == e) = true)
    (hb : ∀ x ∈ rb, (x.exercise_id == e) = false) :
    ((old ++ ra ++ rb).filter (fun x => x.exercise_id == e)).length = ra.length := by
  rw [List.filter_append, List.filter_append, filter_none hold, filter_all ha, filter_none hb]
  simp

theorem count_filter_exId_last (old ra rb : List SetRow) (e : Nat)
    (hold : ∀ x ∈ old, (x.exercise_id == e) = false)
    (ha : ∀ x ∈ ra, (x.exercise_id == e) = false)
    (hb : ∀ x ∈ rb, (x.exercise_id == e) = true) :
    ((old ++ ra ++ rb).filter (fun x => x.exercise_id == e)).length = rb.length := by
  rw [List.filter_append, List.filter_append, filter_none hold, filter_none ha, filter_all hb]
  simp

theorem validateSets_ok_spec :
    ∀ (xs : List JVal) (n : Nat) (ys : List JVal), validateSets xs n = .ok ys →
      ys.length = xs.length ∧
      ∀ (i : Nat) (kvs : JObj), xs[i]? = some (.jobj kvs) →
        ∃ kvs' : JObj, ys[i]? = some (.jobj kvs') ∧
          dictGet kvs' "set_number" =
            (if repairNeeded (dictGet kvs "set_number") then some (.jint ((n : Int) + i + 1))
             else dictGet kvs "set_number") ∧
          dictGet kvs' "reps" = dictGet kvs "reps" ∧
          dictGet kvs' "weight" = dictGet kvs "weight" := by
  intro xs
  induction xs with
  | nil =>
    intro n ys h
    simp only [validateSets] at h
    cases h
    exact ⟨rfl, by intro i kvs hik; simp at hik⟩
  | cons x rest ih =>
    intro n ys h
    cases x with
    | jobj kvs0 =>
      simp only [validateSets] at h
      by_cases hr : repsInvalid (dictGet (repairEntry kvs0 n) "reps") = true
      · rw [if_pos hr] at h; cases h
      · rw [if_neg hr] at h
        by_cases hw : weightInvalid (dictGet (repairEntry kvs0 n) "weight") = true
        · rw [if_pos hw] at h; cases h
        · rw [if_neg hw] at h
          cases hrec : validateSets rest (n + 1) with
          | error e => rw [hrec] at h; cases h
          | ok ys' =>
            rw [hrec] at h
            cases h
            obtain ⟨ihlen, ihspec⟩ := ih (n + 1) ys' hrec
            constructor
            · simp [ihlen]
            · intro i kvs hik
              match i with
              | 0 =>
                simp only [List.getElem?_cons_zero, Option.some.injEq, JVal.jobj.injEq] at hik
                subst hik
                refine ⟨repairEntry kvs0 n, by simp, ?_, repairEntry_reps kvs0 n,
                  repairEntry_weight kvs0 n⟩
                rw [repairEntry_set_number]
                simp
              | i + 1 =>
                rw [List.getElem?_cons_succ] at hik
                obtain ⟨kvs', h1, h2, h3, h4⟩ := ihspec i kvs hik
                refine ⟨kvs', by rw [List.getElem?_cons_succ]; exact h1, ?_, h3, h4⟩
                rw [h2]
                have e : ((n + 1 : Nat) : Int) + i + 1 = (n : Int) + (i + 1 : Nat) + 1 := by
                  push_cast; ring
                rw [e]
    | jnull => simp only [validateSets] at h; exact Except.noConfusion h
    | jbool b => simp only [validateSets] at h; exact Except.noConfusion h
    | jint m => simp only [validateSets] at h; exact Except.noConfusion h
    | jfloat q => simp only [validateSets] at h; exact Except.noConfusion h
    | jstr s => simp only [validateSets] at h; exact Except.noConfusion h
    | jarr zs => simp only [validateSets] at h; exact Except.noConfusion h

theorem validateSets_firstBad_reps :
    ∀ (xs : List JVal) (n i : Nat) (kvs : JObj),
      (∀ j, j < i → ∃ k, xs[j]? = some (.jobj k) ∧ entryPasses (.jobj k) = true) →
      xs[i]? = some (.jobj kvs) →
      repsInvalid (dictGet kvs "reps") = true →
      validateSets xs n = .error (.invalidReps (n + i)) := by
  intro xs
  induction xs with
  | nil => intro n i kvs hpre hik hbad; simp at hik
  | cons x rest ih =>
    intro n i kvs hpre hik hbad
    match i with
    | 0 =>
      simp only [List.getElem?_cons_zero, Option.some.injEq] at hik
      subst hik
      simp only [validateSets]
      rw [repairEntry_reps, if_pos hbad]
      rfl
    | i + 1 =>
      obtain ⟨k0, h0, hpass⟩ := hpre 0 (Nat.succ_pos i)
      simp only [List.getElem?_cons_zero, Option.some.injEq] at h0
      subst h0
      simp only [entryPasses, Bool.and_eq_true, Bool.not_eq_true'] at hpass
      rw [List.getElem?_cons_succ] at hik
      simp only [validateSets]
      rw [repairEntry_reps, if_neg (by rw [hpass.1]; simp),
        repairEntry_weight, if_neg (by rw [hpass.2]; simp)]
      have hrec := ih (n + 1) i kvs
        (fun j hj => by
          have := hpre (j + 1) (by omega)
          rwa [List.getElem?_cons_succ] at this)
        hik hbad
      rw [hrec]
      have e : n + 1 + i = n + (i + 1) := by omega
      rw [e]

theorem validateSets_firstBad_weight :
    ∀ (xs : List JVal) (n i : Nat) (kvs : JObj),
      (∀ j, j < i → ∃ k, xs[j]? = some (.jobj k) ∧ entryPasses (.jobj k) = true) →
      xs[i]? = some (.jobj kvs) →
      repsInvalid (dictGet kvs "reps") = false →
      weightInvalid (dictGet kvs "weight") = true →
      validateSets xs n = .error (.invalidWeight (n + i)) := by
  intro xs
  induction xs with
  | nil => intro n i kvs hpre hik hok hbad; simp at hik
  | cons x rest ih =>
    intro n i kvs hpre hik hok hbad
    match i with
    | 0 =>
      simp only [List.getElem?_cons_zero, Option.some.injEq] at hik
      subst hik
      simp only [validateSets]
      rw [repairEntry_reps, if_neg (by rw [hok]; simp), repairEntry_weight, if_pos hbad]
      rfl
    | i + 1 =>
      obtain ⟨k0, h0, hpass⟩ := hpre 0 (Nat.succ_pos i)
      simp only [List.getElem?_cons_zero, Option.some.injEq] at h0
      subst h0
      simp only [entryPasses, Bool.and_eq_true, Bool.not_eq_true'] at hpass
      rw [List.getElem?_cons_succ] at hik
      simp only [validateSets]
      rw [repairEntry_reps, if_neg (by rw [hpass.1]; simp),
        repairEntry_weight, if_neg (by rw [hpass.2]; simp)]
      have hrec := ih (n + 1) i kvs
        (fun j hj => by
          have := hpre (j + 1) (by omega)
          rwa [List.getElem?_cons_succ] at this)
        hik hok hbad
      rw [hrec]
      have e : n + 1 + i = n + (i + 1) := by omega
      rw [e]

theorem parse_workout_runs_validate (text : String) (pd : JObj) (xs : List JVal)
    (hts : (pystrip text == "") = false)
    (herr : dictGet pd "error" = none)
    (hex : containsKey pd "exercise_name" = true)
    (hsets : dictGet pd "sets" = some (.jarr xs)) :
    parse_workout true text (.ok pd) =
      (validateSets xs 0).map (fun ys => dictSet pd "sets" (.jarr ys)) := by
  have hcs : containsKey pd "sets" = true := by
    rw [containsKey_eq_isSome, hsets]
    rfl
  rw [parse_workout_ok_reduce text pd hts, herr]
  simp [hex, hcs, runSets, hsets]

/-! ## Claim theorems -/

/-- C1: the claim demands atomicity — a failed `logWorkout` invocation
must leave zero new Session/Exercise/Set rows.  The code commits step
by step instead (main.py 479, 497, 511), so a commit failure at set
creation leaves the freshly committed Session and Exercise rows behind:
starting from an empty store, with the third commit failing, the call
errors yet the final store holds one new Session row and one new
Exercise row, and differs from the initial store.  This evaluates the
code at the failing input of the `code_bug` report. -/
theorem c1_stepwise_commits_leave_rows :
    log_workout (fun k => k == 2) ⟨[], [], [], 0⟩
        ⟨"u1", none, "Bench Press", [⟨some 1, some 8, some 185, none⟩], none⟩ =
      (⟨[⟨0, "u1", none⟩], [⟨1, 0, "Bench Press"⟩], [], 2⟩, .error .dbFailure) ∧
    (⟨[⟨0, "u1", none⟩], [⟨1, 0, "Bench Press"⟩], [], 2⟩ : Store) ≠ ⟨[], [], [], 0⟩ :=
  ⟨rfl, by decide⟩

/-- C3: a `logWorkout` call with a session id that matches no session
row owned by the caller (wrong owner or nonexistent id) fails with
`SessionNotFound` and leaves the store exactly unchanged, for every
commit-failure oracle: the lookup (main.py 482-489) precedes every
write. -/
theorem c3_session_scoping (commitFails : Nat → Bool) (st : Store) (r : LogRequest)
    (sid : Nat) (h : r.session_id = some sid)
    (hmiss : st.sessions.any (fun s => s.id == sid && s.user_id == r.user_id) = false) :
    log_workout commitFails st r = (st, .error .sessionNotFound) := by
  simp only [log_workout, h]
  rw [if_neg (by simp [hmiss])]

theorem c3_session_scoping_witness :
    log_workout noFail ⟨[⟨0, "alice", none⟩], [], [], 1⟩
        ⟨"bob", some 0, "Bench Press", [⟨some 1, some 8, some 185, none⟩], none⟩ =
      (⟨[⟨0, "alice", none⟩], [], [], 1⟩, .error .sessionNotFound) :=
  c3_session_scoping noFail _ _ 0 rfl rfl

/-- C5: a JSON-decode failure of the model response yields the distinct
`malformedModelOutput` error; a decoded object with an `error` key
yields `parseRejected` carrying that value; an object lacking
`exercise_name` or `sets` yields `incompleteStructure`.  The modelled
`parse_workout` takes no store argument, matching the source endpoint,
which performs no persistence. -/
theorem c5_parse_error_taxonomy :
    (∀ text : String, (pystrip text == "") = false →
      parse_workout true text (.error ()) = .error .malformedModelOutput) ∧
    (∀ (text : String) (pd : JObj) (v : JVal), (pystrip text == "") = false →
      dictGet pd "error" = some v →
      parse_workout true text (.ok pd) = .error (.parseRejected v)) ∧
    (∀ (text : String) (pd : JObj), (pystrip text == "") = false →
      dictGet pd "error" = none →
      (containsKey pd "exercise_name" = false ∨ containsKey pd "sets" = false) →
      parse_workout true text (.ok pd) = .error .incompleteStructure) := by
  refine ⟨?_, ?_, ?_⟩
  · intro text h
    exact parse_workout_decodeFail text () h
  · intro text pd v h herr
    rw [parse_workout_ok_reduce text pd h, herr]
  · intro text pd h herr hmiss
    rw [parse_workout_ok_reduce text pd h, herr]
    rcases hmiss with hm | hm <;> simp [hm]

theorem c5_parse_error_taxonomy_witness :
    parse_workout true "bench press" (.error ()) = .error .malformedModelOutput ∧
    parse_workout true "bench press" (.ok [("error", .jstr "Could not parse workout data")]) =
      .error (.parseRejected (.jstr "Could not parse workout data")) ∧
    parse_workout true "bench press" (.ok [("exercise_name", .jstr "Bench Press")]) =
      .error .incompleteStructure :=
  ⟨c5_parse_error_taxonomy.1 "bench press" rfl,
   c5_parse_error_taxonomy.2.1 "bench press"
     [("error", .jstr "Could not parse workout data")] (.jstr "Could not parse workout data")
     rfl rfl,
   c5_parse_error_taxonomy.2.2 "bench press" [("exercise_name", .jstr "Bench Press")]
     rfl rfl (Or.inr rfl)⟩

/-- C6: `transcribe_audio` rejects a non-audio declared media type with
`unsupportedMedia`, and an audio payload of more than 25 MB with
`payloadTooLarge`, in both cases with `serviceCalled = false`: the
guards (main.py 364-370) run before the external Whisper call. -/
theorem c6_transcribe_guards :
    (∀ (ct : Option String) (len : Nat) (svc : String),
      declaredAudio ct = false →
      transcribe_audio true ct len svc = ⟨.error .unsupportedMedia, false⟩) ∧
    (∀ (ct : Option String) (len : Nat) (svc : String),
      declaredAudio ct = true → len > 25 * 1024 * 1024 →
      transcribe_audio true ct len svc = ⟨.error .payloadTooLarge, false⟩) := by
  constructor
  · intro ct len svc h
    rw [transcribe_audio]
    simp [h]
  · intro ct len svc h hlen
    rw [transcribe_audio]
    simp [h, hlen]

theorem c6_transcribe_guards_witness :
    transcribe_audio true (some "text/plain") 1000 "hi" = ⟨.error .unsupportedMedia, false⟩ ∧
    transcribe_audio true (some "audio/webm") (26 * 1024 * 1024) "hi" =
      ⟨.error .payloadTooLarge, false⟩ :=
  ⟨c6_transcribe_guards.1 (some "text/plain") 1000 "hi" rfl,
   c6_transcribe_guards.2 (some "audio/webm") (26 * 1024 * 1024) "hi" rfl (by decide)⟩

/-- C7: once the guards pass and the external service is reached
(`serviceCalled = true`), an empty or whitespace-only service result
fails with `noSpeechDetected` (main.py 379-380) instead of returning
an empty string, and otherwise the call returns the stripped, non-empty
transcript. -/
theorem c7_no_speech_trimmed (ct : Option String) (len : Nat) (svc : String)
    (hct : declaredAudio ct = true) (hlen : ¬ len > 25 * 1024 * 1024) :
    (transcribe_audio true ct len svc).serviceCalled = true ∧
    ((pystrip svc == "") = true →
      (transcribe_audio true ct len svc).result = .error .noSpeechDetected) ∧
    ((pystrip svc == "") = false →
      (transcribe_audio true ct len svc).result = .ok (pystrip svc) ∧ pystrip svc ≠ "") := by
  have hred : transcribe_audio true ct len svc =
      (if svc == "" || pystrip svc == "" then ⟨.error .noSpeechDetected, true⟩
       else ⟨.ok (pystrip svc), true⟩) := by
    rw [transcribe_audio]
    simp [hct, hlen]
  refine ⟨?_, ?_, ?_⟩
  · rw [hred]
    split <;> rfl
  · intro h
    rw [hred, if_pos (by simp [h])]
  · intro h
    rw [hred, if_neg (by simp [strip_guard_false h])]
    exact ⟨rfl, by simpa using h⟩

theorem c7_no_speech_trimmed_witness :
    (transcribe_audio true (some "audio/webm") 1000 "   ").result =
      .error .noSpeechDetected ∧
    (transcribe_audio true (some "audio/webm") 1000 " bench press ").result =
      .ok "bench press" := by
  constructor
  · exact (c7_no_speech_trimmed (some "audio/webm") 1000 "   " rfl (by decide)).2.1 rfl
  · have hps : pystrip " bench press " = "bench press" := rfl
    rw [← hps]
    exact ((c7_no_speech_trimmed (some "audio/webm") 1000 " bench press " rfl
      (by decide)).2.2 rfl).1

/-- C2 counterexample: the claim says repaired `set_number` values are
exactly `{1, ..., N}` in input order regardless of what the model
supplied.  The code (main.py 443-444) only replaces a `set_number` that
is missing, not an `int`, or < 1: a single-set structure whose supplied
`set_number` is the integer 7 sails through repair with 7, not 1. -/
theorem c2_counterexample :
    repairedSetNumbers (parse_workout true "bench press"
        (.ok [("exercise_name", .jstr "Bench Press"),
              ("sets", .jarr [ .jobj [("set_number", .jint 7), ("reps", .jint 8),
                                      ("weight", .jint 185)] ])])) =
      some [some (.jint 7)] ∧
    some [some (JVal.jint 7)] ≠ some [some (JVal.jint 1)] := by
  refine ⟨rfl, ?_⟩
  simp

/-- C2 (amended): after repair the validated list has the input's
length, and the entry at 0-based index `i` carries `set_number = i + 1`
exactly when the supplied value was missing, not an integer, or < 1
(the silent repair, not an error); a supplied integer `set_number ≥ 1`
is kept unchanged, so the repaired values are not `{1, ..., N}` in
general. -/
theorem c2_set_number_repair_rule (xs ys : List JVal)
    (h : validateSets xs 0 = .ok ys) :
    ys.length = xs.length ∧
    ∀ (i : Nat) (kvs : JObj), xs[i]? = some (.jobj kvs) →
      ∃ kvs' : JObj, ys[i]? = some (.jobj kvs') ∧
        dictGet kvs' "set_number" =
          (if repairNeeded (dictGet kvs "set_number") then some (.jint ((i : Int) + 1))
           else dictGet kvs "set_number") := by
  obtain ⟨h1, h2⟩ := validateSets_ok_spec xs 0 ys h
  refine ⟨h1, ?_⟩
  intro i kvs hik
  obtain ⟨kvs', ha, hb, -, -⟩ := h2 i kvs hik
  refine ⟨kvs', ha, ?_⟩
  rw [hb]
  have e : ((0 : Nat) : Int) + i + 1 = (i : Int) + 1 := by push_cast; ring
  rw [e]

theorem c2_set_number_repair_rule_witness :
    ∃ kvs' : JObj,
      [JVal.jobj [("reps", JVal.jint 8), ("weight", JVal.jint 185),
                  ("set_number", JVal.jint 1)]][0]? = some (.jobj kvs') ∧
      dictGet kvs' "set_number" = some (.jint 1) := by
  obtain ⟨-, h2⟩ := c2_set_number_repair_rule
    [.jobj [("reps", .jint 8), ("weight", .jint 185)]]
    [.jobj [("reps", .jint 8), ("weight", .jint 185), ("set_number", .jint 1)]] rfl
  obtain ⟨kvs', ha, hb⟩ := h2 0 [("reps", .jint 8), ("weight", .jint 185)] rfl
  exact ⟨kvs', ha, by rw [hb]; rfl⟩

/-- C4: in a structure that reaches the validation loop, the first set
entry whose `reps` is missing, not an integer, or < 0 aborts the whole
structure with `invalidReps` at that entry's index (main.py 446-447);
an entry passing the reps rule but whose `weight` is missing, not
numeric, or < 0 aborts with `invalidWeight` at that index (448-450,
checked after the reps rule).  The result is an error for the entire
structure — no prefix of the set list is accepted — and `parse_workout`
performs no persistence (its type carries no store). -/
theorem c4_reps_weight_rejection :
    (∀ (text : String) (pd : JObj) (xs : List JVal) (i : Nat) (kvs : JObj),
      (pystrip text == "") = false →
      dictGet pd "error" = none →
      containsKey pd "exercise_name" = true →
      dictGet pd "sets" = some (.jarr xs) →
      (∀ j, j < i → ∃ k, xs[j]? = some (.jobj k) ∧ entryPasses (.jobj k) = true) →
      xs[i]? = some (.jobj kvs) →
      repsInvalid (dictGet kvs "reps") = true →
      parse_workout true text (.ok pd) = .error (.invalidReps i)) ∧
    (∀ (text : String) (pd : JObj) (xs : List JVal) (i : Nat) (kvs : JObj),
      (pystrip text == "") = false →
      dictGet pd "error" = none →
      containsKey pd "exercise_name" = true →
      dictGet pd "sets" = some (.jarr xs) →
      (∀ j, j < i → ∃ k, xs[j]? = some (.jobj k) ∧ entryPasses (.jobj k) = true) →
      xs[i]? = some (.jobj kvs) →
      repsInvalid (dictGet kvs "reps") = false →
      weightInvalid (dictGet kvs "weight") = true →
      parse_workout true text (.ok pd) = .error (.invalidWeight i)) := by
  constructor
  · intro text pd xs i kvs hts herr hex hsets hpre hik hbad
    rw [parse_workout_runs_validate text pd xs hts herr hex hsets]
    rw [validateSets_firstBad_reps xs 0 i kvs hpre hik hbad]
    simp [Except.map]
  · intro text pd xs i kvs hts herr hex hsets hpre hik hok hbad
    rw [parse_workout_runs_validate text pd xs hts herr hex hsets]
    rw [validateSets_firstBad_weight xs 0 i kvs hpre hik hok hbad]
    simp [Except.map]

theorem c4_reps_weight_rejection_witness :
    parse_workout true "bench press"
        (.ok [("exercise_name", .jstr "Bench Press"),
              ("sets", .jarr [ .jobj [("set_number", .jint 1), ("reps", .jint (-1)),
                                      ("weight", .jint 185)] ])]) =
      .error (.invalidReps 0) ∧
    parse_workout true "bench press"
        (.ok [("exercise_name", .jstr "Bench Press"),
              ("sets", .jarr [ .jobj [("set_number", .jint 1), ("reps", .jint 8),
                                      ("weight", .jint 185)],
                               .jobj [("set_number", .jint 2), ("reps", .jint 8),
                                      ("weight", .jint (-5))] ])]) =
      .error (.invalidWeight 1) := by
  constructor
  · exact c4_reps_weight_rejection.1 "bench press"
      [("exercise_name", .jstr "Bench Press"),
       ("sets", .jarr [ .jobj [("set_number", .jint 1), ("reps", .jint (-1)),
                               ("weight", .jint 185)] ])]
      [ .jobj [("set_number", .jint 1), ("reps", .jint (-1)), ("weight", .jint 185)] ]
      0 [("set_number", .jint 1), ("reps", .jint (-1)), ("weight", .jint 185)]
      rfl rfl rfl rfl (fun j hj => absurd hj (by omega)) rfl rfl
  · exact c4_reps_weight_rejection.2 "bench press"
      [("exercise_name", .jstr "Bench Press"),
       ("sets", .jarr [ .jobj [("set_number", .jint 1), ("reps", .jint 8),
                               ("weight", .jint 185)],
                        .jobj [("set_number", .jint 2), ("reps", .jint 8),
                               ("weight", .jint (-5))] ])]
      [ .jobj [("set_number", .jint 1), ("reps", .jint 8), ("weight", .jint 185)],
        .jobj [("set_number", .jint 2), ("reps", .jint 8), ("weight", .jint (-5))] ]
      1 [("set_number", .jint 2), ("reps", .jint 8), ("weight", .jint (-5))]
      rfl rfl rfl rfl
      (fun j hj => by
        have hj0 : j = 0 := by omega
        subst hj0
        exact ⟨[("set_number", .jint 1), ("reps", .jint 8), ("weight", .jint 185)], rfl, rfl⟩)
      rfl rfl rfl

/-- C9: `log_workout` performs no validation of its set entries
(main.py 500-513): for every input list — including entries with
missing `set_number`, missing `reps`/`weight`/`notes`, or negative
values — the call succeeds, and the i-th created Set row stores
`set_number = set_data.get("set_number", 1)` (so a missing value
defaults to 1) and `reps`/`weight`/`notes` exactly as supplied
(missing ones as null). -/
theorem c9_logger_no_validation (st : Store) (u nm : String) (ss : List SetInput)
    (nt : Option String) :
    ∃ (st' : Store) (res : LogResult),
      log_workout noFail st ⟨u, none, nm, ss, nt⟩ = (st', .ok res) ∧
      res.sets_created.length = ss.length ∧
      ∀ (i : Nat) (s : SetInput), ss[i]? = some s →
        st'.sets[st.sets.length + i]? =
          some ⟨st.nextId + 2 + i, st.nextId + 1, s.set_number.getD 1,
                s.reps, s.weight, s.notes⟩ := by
  refine ⟨_, _, log_workout_noFail_new st ⟨u, none, nm, ss, nt⟩ rfl, ?_, ?_⟩
  · exact idsFrom_length _ _
  · intro i s hs
    show (st.sets ++ mkSetRows (st.nextId + 1) (st.nextId + 2) ss)[st.sets.length + i]? = _
    rw [getElem?_append_len]
    exact mkSetRows_getElem? (st.nextId + 1) ss (st.nextId + 2) i s hs

theorem c9_logger_no_validation_witness :
    ∃ (st' : Store) (res : LogResult),
      log_workout noFail ⟨[], [], [], 0⟩
          ⟨"u1", none, "Squats",
           [⟨none, none, none, none⟩, ⟨none, some (-3), some (-10), none⟩], none⟩ =
        (st', .ok res) ∧
      st'.sets[1]? = some ⟨3, 1, 1, some (-3), some (-10), none⟩ := by
  obtain ⟨st', res, heq, -, hspec⟩ := c9_logger_no_validation ⟨[], [], [], 0⟩ "u1" "Squats"
    [⟨none, none, none, none⟩, ⟨none, some (-3), some (-10), none⟩] none
  refine ⟨st', res, heq, ?_⟩
  have h1 := hspec 1 ⟨none, some (-3), some (-10), none⟩ rfl
  simpa using h1

/-- C10: the empty set list is accepted at every stage.  A decoded
object carrying `exercise_name` and `sets = []` (and no `error` key)
passes the validation loop zero times and is returned unchanged; and
`log_workout` with an empty set list succeeds, creating one new Session
row (none was given) and one Exercise row and zero Set rows, returning
an empty `sets_created` list. -/
theorem c10_empty_set_list :
    (∀ (text : String) (pd : JObj),
      (pystrip text == "") = false →
      dictGet pd "error" = none →
      containsKey pd "exercise_name" = true →
      containsKey pd "sets" = true →
      (∀ p ∈ pd, p.1 = "sets" → p.2 = .jarr []) →
      parse_workout true text (.ok pd) = .ok pd) ∧
    (∀ (st : Store) (u nm : String) (nt : Option String),
      log_workout noFail st ⟨u, none, nm, [], nt⟩ =
        (⟨st.sessions ++ [⟨st.nextId, u, nt⟩],
          st.exercises ++ [⟨st.nextId + 1, st.nextId, nm⟩],
          st.sets, st.nextId + 2⟩,
         .ok ⟨st.nextId, st.nextId + 1, []⟩)) := by
  constructor
  · intro text pd hts herr hex hcs hall
    have hsets : dictGet pd "sets" = some (.jarr []) :=
      dictGet_of_all pd "sets" (.jarr []) hcs hall
    rw [parse_workout_runs_validate text pd [] hts herr hex hsets]
    show Except.ok (dictSet pd "sets" (.jarr [])) = .ok pd
    rw [dictSet_of_all pd "sets" (.jarr []) hcs hall]
  · intro st u nm nt
    have h := log_workout_noFail_new st ⟨u, none, nm, [], nt⟩ rfl
    simpa [mkSetRows, idsFrom] using h

theorem c10_empty_set_list_witness :
    parse_workout true "bench press"
        (.ok [("exercise_name", .jstr "Bench Press"), ("sets", .jarr [])]) =
      .ok [("exercise_name", .jstr "Bench Press"), ("sets", .jarr [])] ∧
    log_workout noFail ⟨[], [], [], 0⟩ ⟨"u1", none, "Bench Press", [], none⟩ =
      (⟨[⟨0, "u1", none⟩], [⟨1, 0, "Bench Press"⟩], [], 2⟩, .ok ⟨0, 1, []⟩) := by
  constructor
  · exact c10_empty_set_list.1 "bench press"
      [("exercise_name", .jstr "Bench Press"), ("sets", .jarr [])]
      rfl rfl rfl rfl
      (by
        intro p hp hk
        rcases List.mem_cons.mp hp with h1 | h1
        · subst h1
          exact absurd hk (by decide)
        · rcases List.mem_cons.mp h1 with h2 | h2
          · subst h2
            rfl
          · cases h2)
  · exact c10_empty_set_list.2 ⟨[], [], [], 0⟩ "u1" "Bench Press" none

/-- C8: `logWorkout` is not idempotent.  Calling it twice with the same
request (successfully, under a never-failing commit oracle and a
well-formed store) creates two Exercise rows with distinct ids — never
a merge — each carrying the requested name and each owning its own N
Set rows in the final store, where N is the request's set-list length. -/
theorem c8_not_idempotent (st : Store) (hwf : Store.wf st) (r : LogRequest)
    (hs : sessionOK st r) :
    ∃ (st1 : Store) (out1 : LogResult) (st2 : Store) (out2 : LogResult),
      log_workout noFail st r = (st1, .ok out1) ∧
      log_workout noFail st1 r = (st2, .ok out2) ∧
      out1.exercise_id ≠ out2.exercise_id ∧
      st2.exercises.length = st.exercises.length + 2 ∧
      (∃ e1 ∈ st2.exercises, e1.id = out1.exercise_id ∧
        e1.exercise_name = r.exercise_name) ∧
      (∃ e2 ∈ st2.exercises, e2.id = out2.exercise_id ∧
        e2.exercise_name = r.exercise_name) ∧
      (st2.sets.filter (fun x => x.exercise_id == out1.exercise_id)).length =
        r.sets.length ∧
      (st2.sets.filter (fun x => x.exercise_id == out2.exercise_id)).length =
        r.sets.length := by
  cases hsid : r.session_id with
  | none =>
    refine ⟨_, _, _, _, log_workout_noFail_new st r hsid,
      log_workout_noFail_new _ r hsid, ?_, ?_, ?_, ?_, ?_, ?_⟩
    · dsimp only
      omega
    · dsimp only
      simp
    · refine ⟨⟨st.nextId + 1, st.nextId, r.exercise_name⟩, ?_, rfl, rfl⟩
      dsimp only
      simp
    · refine ⟨⟨st.nextId + 2 + r.sets.length + 1, st.nextId + 2 + r.sets.length,
        r.exercise_name⟩, ?_, rfl, rfl⟩
      dsimp only
      simp
    · dsimp only
      rw [count_filter_exId st.sets _ _ (st.nextId + 1)
        (fun x hx => nat_beq_false (by have := (hwf.2.2 x hx).2; omega))
        (fun x hx => by rw [mkSetRows_exercise_id _ _ _ x hx]; simp)
        (fun x hx => nat_beq_false (by rw [mkSetRows_exercise_id _ _ _ x hx]; omega))]
      exact mkSetRows_length _ _ _
    · dsimp only
      rw [count_filter_exId_last st.sets _ _ (st.nextId + 2 + r.sets.length + 1)
        (fun x hx => nat_beq_false (by have := (hwf.2.2 x hx).2; omega))
        (fun x hx => nat_beq_false (by rw [mkSetRows_exercise_id _ _ _ x hx]; omega))
        (fun x hx => by rw [mkSetRows_exercise_id _ _ _ x hx]; simp)]
      exact mkSetRows_length _ _ _
  | some sid =>
    have hex : st.sessions.any (fun s => s.id == sid && s.user_id == r.user_id) = true := by
      have := hs
      simp only [sessionOK, hsid] at this
      exact this
    refine ⟨_, _, _, _, log_workout_noFail_existing st r sid hsid hex,
      log_workout_noFail_existing _ r sid hsid (by dsimp only; exact hex),
      ?_, ?_, ?_, ?_, ?_, ?_⟩
    · dsimp only
      omega
    · dsimp only
      simp
    · refine ⟨⟨st.nextId, sid, r.exercise_name⟩, ?_, rfl, rfl⟩
      dsimp only
      simp
    · refine ⟨⟨st.nextId + 1 + r.sets.length, sid, r.exercise_name⟩, ?_, rfl, rfl⟩
      dsimp only
      simp
    · dsimp only
      rw [count_filter_exId st.sets _ _ st.nextId
        (fun x hx => nat_beq_false (by have := (hwf.2.2 x hx).2; omega))
        (fun x hx => by rw [mkSetRows_exercise_id _ _ _ x hx]; simp)
        (fun x hx => nat_beq_false (by rw [mkSetRows_exercise_id _ _ _ x hx]; omega))]
      exact mkSetRows_length _ _ _
    · dsimp only
      rw [count_filter_exId_last st.sets _ _ (st.nextId + 1 + r.sets.length)
        (fun x hx => nat_beq_false (by have := (hwf.2.2 x hx).2; omega))
        (fun x hx => nat_beq_false (by rw [mkSetRows_exercise_id _ _ _ x hx]; omega))
        (fun x hx => by rw [mkSetRows_exercise_id _ _ _ x hx]; simp)]
      exact mkSetRows_length _ _ _

theorem c8_not_idempotent_witness :
    ∃ (st1 : Store) (out1 : LogResult) (st2 : Store) (out2 : LogResult),
      log_workout noFail ⟨[], [], [], 0⟩
          ⟨"u1", none, "Bench Press", [⟨some 1, some 8, some 185, none⟩], none⟩ =
        (st1, .ok out1) ∧
      log_workout noFail st1
          ⟨"u1", none, "Bench Press", [⟨some 1, some 8, some 185, none⟩], none⟩ =
        (st2, .ok out2) ∧
      out1.exercise_id ≠ out2.exercise_id ∧
      st2.exercises.length = 0 + 2 := by
  obtain ⟨st1, out1, st2, out2, h1, h2, h3, h4, -⟩ :=
    c8_not_idempotent ⟨[], [], [], 0⟩
      (by refine ⟨?_, ?_, ?_⟩ <;> intro x hx <;> cases hx)
      ⟨"u1", none, "Bench Press", [⟨some 1, some 8, some 185, none⟩], none⟩
      trivial
  exact ⟨st1, out1, st2, out2, h1, h2, h3, h4⟩

end GymAI
